import Mathlib

/-!
# Property listings API: token verifier and property controller

A shallow embedding of `backend/middlewares/verifyToken.js` and
`backend/controllers/propertyController.js`.

* JavaScript strings are `String`s; the two string operations the middleware uses
  (`startsWith`, `split(" ")`) are written out on character lists.
* `jwt.verify` belongs to the `jsonwebtoken` library and is a parameter `jwtVerify`:
  it either returns the decoded claim or throws with a message.
* The `Property` and `User` models (`../models/Property`, `../models/User`) and the document
  store behind them are not part of the sources; they are modelled from the data model of
  the specification as an in-memory collection (section "Document store").
* A handler is a function from the request and the store to the response and the new store.
  A `catch` branch is reached only where the JavaScript of the `try` block can throw in the
  model: reading a property of `null` or `undefined`.
-/

namespace PropertyApi

/-! ## JSON values -/

/-- JSON values carried by request bodies, query strings and documents. -/
inductive Json where
  | null
  | bool (b : Bool)
  | num (n : Int)
  | str (s : String)
  | arr (xs : List Json)
  | obj (kvs : List (String × Json))

mutual
/-- Decidable equality of JSON values. -/
def Json.decEq : (a b : Json) → Decidable (a = b)
  | .null, .null => isTrue rfl
  | .bool a, .bool b =>
    if h : a = b then isTrue (by rw [h]) else isFalse (by intro e; cases e; exact h rfl)
  | .num a, .num b =>
    if h : a = b then isTrue (by rw [h]) else isFalse (by intro e; cases e; exact h rfl)
  | .str a, .str b =>
    if h : a = b then isTrue (by rw [h]) else isFalse (by intro e; cases e; exact h rfl)
  | .arr a, .arr b =>
    match Json.decEqList a b with
    | isTrue h => isTrue (by rw [h])
    | isFalse h => isFalse (by intro e; cases e; exact h rfl)
  | .obj a, .obj b =>
    match Json.decEqFields a b with
    | isTrue h => isTrue (by rw [h])
    | isFalse h => isFalse (by intro e; cases e; exact h rfl)
  | .null, .bool _ | .null, .num _ | .null, .str _ | .null, .arr _ | .null, .obj _
  | .bool _, .null | .bool _, .num _ | .bool _, .str _ | .bool _, .arr _ | .bool _, .obj _
  | .num _, .null | .num _, .bool _ | .num _, .str _ | .num _, .arr _ | .num _, .obj _
  | .str _, .null | .str _, .bool _ | .str _, .num _ | .str _, .arr _ | .str _, .obj _
  | .arr _, .null | .arr _, .bool _ | .arr _, .num _ | .arr _, .str _ | .arr _, .obj _
  | .obj _, .null | .obj _, .bool _ | .obj _, .num _ | .obj _, .str _ | .obj _, .arr _ =>
    isFalse (by intro e; cases e)
/-- Decidable equality of JSON arrays. -/
def Json.decEqList : (a b : List Json) → Decidable (a = b)
  | [], [] => isTrue rfl
  | [], _ :: _ => isFalse (by intro e; cases e)
  | _ :: _, [] => isFalse (by intro e; cases e)
  | x :: xs, y :: ys =>
    match Json.decEq x y, Json.decEqList xs ys with
    | isTrue h, isTrue hs => isTrue (by rw [h, hs])
    | isFalse h, _ => isFalse (by intro e; cases e; exact h rfl)
    | _, isFalse hs => isFalse (by intro e; cases e; exact hs rfl)
/-- Decidable equality of the key/value lists of JSON objects. -/
def Json.decEqFields : (a b : List (String × Json)) → Decidable (a = b)
  | [], [] => isTrue rfl
  | [], _ :: _ => isFalse (by intro e; cases e)
  | _ :: _, [] => isFalse (by intro e; cases e)
  | (k, x) :: xs, (l, y) :: ys =>
    if hk : k = l then
      match Json.decEq x y, Json.decEqFields xs ys with
      | isTrue h, isTrue hs => isTrue (by rw [hk, h, hs])
      | isFalse h, _ => isFalse (by intro e; cases e; exact h rfl)
      | _, isFalse hs => isFalse (by intro e; cases e; exact hs rfl)
    else isFalse (by intro e; cases e; exact hk rfl)
end

instance : DecidableEq Json := Json.decEq

/-- JavaScript truthiness of a value, as tested by `cond ? a : b`. -/
def truthy : Json → Bool
  | .null => false
  | .bool b => b
  | .num n => n != 0
  | .str s => s != ""
  | .arr _ => true
  | .obj _ => true

/-- A JavaScript object as a key/value list; a key is read at its first entry. -/
abbrev Fields := List (String × Json)

/-- Read key `k` of an object; `none` is `undefined`. -/
def getField (k : String) : Fields → Option Json
  | [] => none
  | (k', v) :: rest => if k' = k then some v else getField k rest

/-- Write key `k` of an object: overwrite it where it is, add it when it is missing. -/
def setField (k : String) (v : Json) : Fields → Fields
  | [] => [(k, v)]
  | (k', v') :: rest => if k' = k then (k, v) :: rest else (k', v') :: setField k v rest

/-- Drop key `k` from an object. -/
def eraseField (k : String) (fs : Fields) : Fields :=
  fs.filter (fun kv => kv.1 != k)

/-! ## Data model -/

/-- A property document: id, owner reference, bookmark list and the descriptive fields
(`type`, `featured` and whatever else the client supplied). -/
structure Property where
  _id : String
  currentOwner : String
  bookmarkedUsers : List String
  fields : Fields
  deriving DecidableEq

/-- A user document; the password is the key `password` of `fields`. -/
structure User where
  _id : String
  fields : Fields
  deriving DecidableEq

/-- A property with its owner reference resolved by `populate`; `none` when no user has the
referenced id. -/
structure PopulatedProperty where
  _id : String
  currentOwner : Option User
  bookmarkedUsers : List String
  fields : Fields
  deriving DecidableEq

/-- A request body that fits the data model: the owner reference and the bookmark list when
the client sent them, and the descriptive fields. -/
structure Body where
  currentOwner : Option String
  bookmarkedUsers : Option (List String)
  fields : Fields
  deriving DecidableEq

/-- The object handed to `Property.create`. -/
structure NewProperty where
  currentOwner : String
  bookmarkedUsers : Option (List String)
  fields : Fields
  deriving DecidableEq

/-- The identity claim decoded from a token: `{ id: user._id }`. -/
structure Claim where
  id : String
  deriving DecidableEq

/-! ## Document store -/

/-- Modelled from the spec: the `Property` and `User` collections of the document store
(`../models/Property`, `../models/User` and the database are missing from the sources).
`nextId` numbers the documents created so far. -/
structure Store where
  properties : List Property
  users : List User
  nextId : Nat
  deriving DecidableEq

/-- Modelled from the spec: `Property.findById(id)` (the model is missing from the sources),
the first document with that id or `null`. -/
def Store.findById (s : Store) (id : String) : Option Property :=
  s.properties.find? (fun p => p._id = id)

/-- Modelled from the spec: `Property.find({})`, every document. -/
def Store.findAll (s : Store) : List Property :=
  s.properties

/-- Modelled from the spec: `Property.find({ k: v })` on a descriptive field, the documents
whose field `k` equals `v` (field-level filter). -/
def Store.findByField (s : Store) (k : String) (v : Json) : List Property :=
  s.properties.filter (fun p => getField k p.fields = some v)

/-- Modelled from the spec: `Property.countDocuments({ k: v })`. -/
def Store.countByField (s : Store) (k : String) (v : Json) : Nat :=
  (s.findByField k v).length

/-- Modelled from the spec: `Property.find({ currentOwner: id })`. -/
def Store.findByOwner (s : Store) (id : String) : List Property :=
  s.properties.filter (fun p => p.currentOwner = id)

/-- Modelled from the spec: `Property.find({ bookmarkedUsers: { $in: [id] } })`. -/
def Store.findBookmarkedBy (s : Store) (id : String) : List Property :=
  s.properties.filter (fun p => id ∈ p.bookmarkedUsers)

/-- Modelled from the spec: `.populate("currentOwner", "-password")`, the owner reference
replaced by the user document without its password. -/
def Store.populate (s : Store) (p : Property) : PopulatedProperty :=
  { _id := p._id
    currentOwner := (s.users.find? (fun u => u._id = p.currentOwner)).map
      (fun u => { u with fields := eraseField "password" u.fields })
    bookmarkedUsers := p.bookmarkedUsers
    fields := p.fields }

/-- Modelled from the spec: `Property.create(doc)`; the store assigns the id, an absent
bookmark list is empty, and the new document is persisted and returned. -/
def Store.create (s : Store) (doc : NewProperty) : Property × Store :=
  let p : Property :=
    { _id := toString s.nextId
      currentOwner := doc.currentOwner
      bookmarkedUsers := doc.bookmarkedUsers.getD []
      fields := doc.fields }
  (p, { s with properties := s.properties ++ [p], nextId := s.nextId + 1 })

/-- The partial field-level overwrite of `$set`: every field of the body replaces the
field of the document, the others stay. -/
def applySet (body : Body) (p : Property) : Property :=
  { _id := p._id
    currentOwner := body.currentOwner.getD p.currentOwner
    bookmarkedUsers := body.bookmarkedUsers.getD p.bookmarkedUsers
    fields := body.fields.foldr (fun kv acc => setField kv.1 kv.2 acc) p.fields }

/-- Replace the first document with id `id` by `f` of it. -/
def updateFirst (id : String) (f : Property → Property) : List Property → List Property
  | [] => []
  | p :: rest => if p._id = id then f p :: rest else p :: updateFirst id f rest

/-- Remove the first document with id `id`. -/
def removeFirst (id : String) : List Property → List Property
  | [] => []
  | p :: rest => if p._id = id then rest else p :: removeFirst id rest

/-- Modelled from the spec: `Property.findByIdAndUpdate(id, { $set: body }, { new: true })`,
the updated document (or `null`) and the new store. -/
def Store.findByIdAndUpdate (s : Store) (id : String) (body : Body) :
    Option Property × Store :=
  ((s.findById id).map (applySet body),
   { s with properties := updateFirst id (applySet body) s.properties })

/-- Modelled from the spec: `property.save()`, the stored document with that id is replaced
by the document in hand. -/
def Store.save (s : Store) (p : Property) : Store :=
  { s with properties := updateFirst p._id (fun _ => p) s.properties }

/-- Modelled from the spec: `property.delete()`, the stored document with that id is
removed. -/
def Store.delete (s : Store) (p : Property) : Store :=
  { s with properties := removeFirst p._id s.properties }

/-! ## Requests and responses -/

/-- The JSON bodies the middleware and the controller send. -/
inductive ResBody where
  /-- The body `{ msg }`. -/
  | msg (msg : String)
  /-- The body `{ msg, error }`. -/
  | msgError (msg : String) (error : String)
  /-- The body `{ error }`. -/
  | error (error : String)
  /-- The body `null`. -/
  | null
  /-- One document. -/
  | property (p : Property)
  /-- One document with its owner embedded. -/
  | populated (p : PopulatedProperty)
  /-- A list of documents. -/
  | properties (ps : List Property)
  /-- A list of documents with their owners embedded. -/
  | populatedList (ps : List PopulatedProperty)
  /-- The body `{ beach, mountain, village }`. -/
  | typeCounts (beach : Nat) (mountain : Nat) (village : Nat)
  deriving DecidableEq

/-- What `res.status(code).json(body)` sends. -/
structure Response where
  status : Nat
  body : ResBody
  deriving DecidableEq

/-- The parts of an Express request the code reads: `req.headers.authorization`,
`req.query`, `req.body` and `req.user`. -/
structure Request where
  authorization : Option String
  query : Fields
  body : Body
  user : Option Claim
  deriving DecidableEq

/-- The routes of the router, with `req.params.id` where the path has `:id`. -/
inductive Route where
  | getAll
  | findFeatured
  | find
  | findTypes
  | findMyProperties
  | findBookmarkedProperties
  | findById (id : String)
  | create
  | update (id : String)
  | bookmark (id : String)
  | delete (id : String)
  deriving DecidableEq

/-! ## Token verifier (`backend/middlewares/verifyToken.js`) -/

/-- Whether the characters `pre` begin the characters `s`. -/
def startsWithChars : List Char → List Char → Bool
  | _, [] => true
  | [], _ :: _ => false
  | c :: cs, d :: ds => c == d && startsWithChars cs ds

/-- JavaScript `s.startsWith(pre)`. -/
def startsWith (s pre : String) : Bool :=
  startsWithChars s.toList pre.toList

/-- The pieces of a character list between its spaces. -/
def splitChars : List Char → List (List Char)
  | [] => [[]]
  | c :: cs =>
    if c = ' ' then [] :: splitChars cs
    else
      match splitChars cs with
      | [] => [[c]]
      | w :: ws => (c :: w) :: ws

/-- JavaScript `s.split(" ")`. -/
def split (s : String) : List String :=
  (splitChars s.toList).map String.mk

/-- What the middleware does with a request: it answers, or it calls `next()` with the
request it has written `req.user` on. -/
inductive Outcome where
  | respond (res : Response)
  | next (req : Request)
  deriving DecidableEq

/-- The middleware `verifyToken`. `jwtVerify token` stands for
`jwt.verify(token, process.env.JWT_SECRET)`: the decoded claim, or the message of the error
thrown. A missing header is `none`; the empty header is falsy as well. -/
def verifyToken (jwtVerify : Option String → Except String Claim) (req : Request) : Outcome :=
  match req.authorization with
  | none => .respond ⟨403, .msg "Not authorized. No token provided"⟩
  | some authHeader =>
    if authHeader = "" || !startsWith authHeader "Bearer " then
      .respond ⟨403, .msg "Not authorized. No token provided"⟩
    else
      let token := (split authHeader)[1]?
      match jwtVerify token with
      | .ok data => .next { req with user := some data }
      | .error message => .respond ⟨403, .msgError "Wrong or expired token" message⟩

/-! ## Property controller (`backend/controllers/propertyController.js`) -/

/-- A route handler: the response and the store after the request. -/
abbrev Handler := Request → Store → Response × Store

/-- The message of the `TypeError` thrown on reading `currentOwner` of `null`. -/
def nullOwnerError : String := "Cannot read properties of null (reading 'currentOwner')"

/-- The message of the `TypeError` thrown on reading `id` of an undefined `req.user`. -/
def noUserError : String := "Cannot read properties of undefined (reading 'id')"

/-- Handler of `GET /getAll`. -/
def getAll : Handler := fun _ s =>
  (⟨200, .populatedList (s.findAll.map s.populate)⟩, s)

/-- Handler of `GET /find/featured`. -/
def findFeatured : Handler := fun _ s =>
  (⟨200, .populatedList ((s.findByField "featured" (.bool true)).map s.populate)⟩, s)

/-- Handler of `GET /find`: `const type = req.query`, then `Property.find({ type })` when
`type` is truthy and `Property.find({})` otherwise. -/
def find : Handler := fun req s =>
  let type : Json := .obj req.query
  if truthy type then
    (⟨200, .populatedList ((s.findByField "type" type).map s.populate)⟩, s)
  else
    (⟨200, .properties s.findAll⟩, s)

/-- Handler of `GET /find/types`. -/
def findTypes : Handler := fun _ s =>
  (⟨200, .typeCounts (s.countByField "type" (.str "beach"))
    (s.countByField "type" (.str "mountain")) (s.countByField "type" (.str "village"))⟩, s)

/-- Handler of `GET /find/my-properties`. -/
def findMyProperties : Handler := fun req s =>
  match req.user with
  | none => (⟨500, .error noUserError⟩, s)
  | some user => (⟨200, .properties (s.findByOwner user.id)⟩, s)

/-- Handler of `GET /find/bookmarked-properties`. -/
def findBookmarkedProperties : Handler := fun req s =>
  match req.user with
  | none => (⟨500, .error noUserError⟩, s)
  | some user => (⟨200, .properties (s.findBookmarkedBy user.id)⟩, s)

/-- Handler of `GET /find/:id`. -/
def findOne (id : String) : Handler := fun _ s =>
  match s.findById id with
  | none => (⟨404, .error "Property not found"⟩, s)
  | some property => (⟨200, .populated (s.populate property)⟩, s)

/-- Handler of `POST /`: `Property.create({ ...req.body, currentOwner: req.user.id })`. -/
def createProperty : Handler := fun req s =>
  match req.user with
  | none => (⟨500, .error noUserError⟩, s)
  | some user =>
    let (newProperty, s') := s.create
      { currentOwner := user.id
        bookmarkedUsers := req.body.bookmarkedUsers
        fields := req.body.fields }
    (⟨201, .property newProperty⟩, s')

/-- Handler of `PUT /:id`. The document is read without a null check, so a missing document
throws inside the `try` block and the `catch` branch answers. -/
def updateProperty (id : String) : Handler := fun req s =>
  match s.findById id with
  | none => (⟨500, .error nullOwnerError⟩, s)
  | some property =>
    match req.user with
    | none => (⟨500, .error noUserError⟩, s)
    | some user =>
      if property.currentOwner ≠ user.id then
        (⟨403, .error "You are not allowed to update other people's properties"⟩, s)
      else
        match s.findByIdAndUpdate id req.body with
        | (some updatedProperty, s') => (⟨200, .property updatedProperty⟩, s')
        | (none, s') => (⟨200, .null⟩, s')

/-- JavaScript `xs.indexOf(x)`: the first index of `x`, `none` for `-1`. -/
def indexOf (x : String) : List String → Option Nat
  | [] => none
  | y :: ys => if y = x then some 0 else (indexOf x ys).map (· + 1)

/-- JavaScript `xs.splice(i, 1)`: the array without its element at index `i`. -/
def splice1 : Nat → List String → List String
  | _, [] => []
  | 0, _ :: ys => ys
  | i + 1, y :: ys => y :: splice1 i ys

/-- Handler of `PUT /bookmark/:id`. -/
def toggleBookmark (id : String) : Handler := fun req s =>
  match s.findById id with
  | none => (⟨404, .error "Property not found"⟩, s)
  | some property =>
    match req.user with
    | none => (⟨500, .error noUserError⟩, s)
    | some user =>
      if property.currentOwner = user.id then
        (⟨403, .error "You are not allowed to bookmark your own property"⟩, s)
      else
        let property :=
          match indexOf user.id property.bookmarkedUsers with
          | some index =>
            { property with bookmarkedUsers := splice1 index property.bookmarkedUsers }
          | none =>
            { property with bookmarkedUsers := property.bookmarkedUsers ++ [user.id] }
        (⟨200, .property property⟩, s.save property)

/-- Handler of `DELETE /:id`. As in `PUT /:id` the document is read without a null check. -/
def deleteProperty (id : String) : Handler := fun req s =>
  match s.findById id with
  | none => (⟨500, .error nullOwnerError⟩, s)
  | some property =>
    match req.user with
    | none => (⟨500, .error noUserError⟩, s)
    | some user =>
      if property.currentOwner ≠ user.id then
        (⟨403, .error "You are not allowed to delete other people's properties"⟩, s)
      else
        (⟨200, .msg "Successfully deleted property"⟩, s.delete property)

/-- A handler behind the middleware `verifyToken`: it runs on the request the middleware
passes to `next()`, and does not run when the middleware answers. -/
def guarded (jwtVerify : Option String → Except String Claim) (handler : Handler) : Handler :=
  fun req s =>
    match verifyToken jwtVerify req with
    | .respond res => (res, s)
    | .next req' => handler req' s

/-- The handler registered for a route. -/
def Route.handler : Route → Handler
  | .getAll => PropertyApi.getAll
  | .findFeatured => PropertyApi.findFeatured
  | .find => PropertyApi.find
  | .findTypes => PropertyApi.findTypes
  | .findMyProperties => PropertyApi.findMyProperties
  | .findBookmarkedProperties => PropertyApi.findBookmarkedProperties
  | .findById id => findOne id
  | .create => createProperty
  | .update id => updateProperty id
  | .bookmark id => toggleBookmark id
  | .delete id => deleteProperty id

/-- Whether the route is registered with `verifyToken` before its handler. -/
def Route.isProtected : Route → Bool
  | .findMyProperties => true
  | .findBookmarkedProperties => true
  | .create => true
  | .update _ => true
  | .bookmark _ => true
  | .delete _ => true
  | _ => false

/-- The router: the handler of the route, behind `verifyToken` on the protected routes. -/
def propertyController (jwtVerify : Option String → Except String Claim) (route : Route) :
    Handler :=
  if route.isProtected then guarded jwtVerify route.handler else route.handler

/-- A request as an authenticated caller sends it through `verifyToken`: `req.user` is the
caller's claim. -/
def authedRequest (caller : String) (query : Fields) (body : Body) : Request :=
  { authorization := none, query := query, body := body, user := some ⟨caller⟩ }

/-! ## Vocabulary of the statements -/

/-- The answer of the middleware to a request it does not look into. -/
def noTokenResponse : Response := ⟨403, .msg "Not authorized. No token provided"⟩

/-- The answer of the middleware to a token whose verification threw `message`. -/
def wrongTokenResponse (message : String) : Response :=
  ⟨403, .msgError "Wrong or expired token" message⟩

/-- The token the middleware extracts: `authHeader.split(" ")[1]`. -/
def extractToken (authHeader : String) : Option String :=
  (split authHeader)[1]?

/-- The request carries no valid bearer token: the header is absent, does not start with
`Bearer `, or the token extracted from it fails verification. -/
def AuthFails (jwtVerify : Option String → Except String Claim) (req : Request) : Prop :=
  req.authorization = none ∨
  (∃ a, req.authorization = some a ∧ startsWith a "Bearer " = false) ∨
  (∃ a message, req.authorization = some a ∧ jwtVerify (extractToken a) = .error message)

/-- The header has the form `Bearer <token>` with a non-empty `<token>`. -/
def BearerForm (a : String) : Prop :=
  ∃ token : String, token ≠ "" ∧ a = "Bearer " ++ token

/-- A verifier for the examples: like `jsonwebtoken` it throws `jwt must be provided` on a
missing or empty token; every other token is taken as the id of its user. -/
def sampleVerify : Option String → Except String Claim
  | none => .error "jwt must be provided"
  | some token => if token = "" then .error "jwt must be provided" else .ok ⟨token⟩

/-- A request with no body and no query string, with the given `Authorization` header. -/
def bareRequest (authorization : Option String) : Request :=
  { authorization := authorization, query := [], body := ⟨none, none, []⟩, user := none }

/-- The store with no property and no user. -/
def emptyStore : Store := ⟨[], [], 0⟩

/-- The bookmark list after `PUT /bookmark/:id` by `caller`: the first occurrence of the
caller's id is removed, or the id is pushed when it is not in the list. -/
def toggled (caller : String) (bookmarkedUsers : List String) : List String :=
  match indexOf caller bookmarkedUsers with
  | some index => splice1 index bookmarkedUsers
  | none => bookmarkedUsers ++ [caller]

/-- The store after `POST /` by `o` with the body `{ bookmarkedUsers: ["c", "c"] }` on the
empty store: one property, owned by `o`, whose bookmark list names `c` twice. -/
def twiceBookmarked : Store :=
  ⟨[⟨"0", "o", ["c", "c"], []⟩], [], 1⟩

/-- The store after `POST /` by `o` with the body `{ bookmarkedUsers: ["c", "d", "c"] }` on
the empty store: one property, owned by `o`, whose bookmark list names `c` before and after
`d`. -/
def twiceBookmarkedAround : Store :=
  ⟨[⟨"0", "o", ["c", "d", "c"], []⟩], [], 1⟩

/-- An empty request body. -/
def emptyBody : Body := ⟨none, none, []⟩

/-- A store with one property `p1`, owned by `o`, of type `beach`, priced 100. -/
def oneListing : Store :=
  ⟨[⟨"p1", "o", [], [("type", .str "beach"), ("price", .num 100)]⟩], [], 1⟩

/-- A request with the given query string, no `Authorization` header and no body. -/
def queryRequest (query : Fields) : Request :=
  { authorization := none, query := query, body := emptyBody, user := none }

/-- No property lists its own owner among its bookmarking users. -/
def NoSelfBookmark (s : Store) : Prop :=
  ∀ p ∈ s.properties, p.currentOwner ∉ p.bookmarkedUsers

instance (s : Store) : Decidable (NoSelfBookmark s) := by
  unfold NoSelfBookmark
  infer_instance

/-- The store after a sequence of requests, each handled by the handler of its route. -/
def applyRequests (requests : List (Route × Request)) (s : Store) : Store :=
  requests.foldl (fun acc r => (r.1.handler r.2 acc).2) s

/-! # Theorems -/

/-! ## The token verifier: helper lemmas -/

section VerifyToken

variable (jwtVerify : Option String → Except String Claim)

theorem startsWith_empty : startsWith "" "Bearer " = false := by decide

theorem verifyToken_absent (req : Request) (h : req.authorization = none) :
    verifyToken jwtVerify req = .respond noTokenResponse := by
  simp [verifyToken, h, noTokenResponse]

theorem verifyToken_noBearer (req : Request) (a : String) (h : req.authorization = some a)
    (hb : startsWith a "Bearer " = false) :
    verifyToken jwtVerify req = .respond noTokenResponse := by
  simp [verifyToken, h, hb, noTokenResponse]

theorem startsWith_ne_empty (a : String) (hb : startsWith a "Bearer " = true) : a ≠ "" := by
  rintro rfl
  rw [startsWith_empty] at hb
  exact Bool.noConfusion hb

theorem verifyToken_bearer (req : Request) (a : String) (h : req.authorization = some a)
    (hb : startsWith a "Bearer " = true) :
    verifyToken jwtVerify req =
      match jwtVerify (extractToken a) with
      | .ok data => .next { req with user := some data }
      | .error message => .respond (wrongTokenResponse message) := by
  have hne := startsWith_ne_empty a hb
  simp [verifyToken, h, hb, hne, extractToken, wrongTokenResponse]

end VerifyToken

/-! ## C1: protected routes answer 403 without a valid token -/

theorem guarded_respond (jwtVerify : Option String → Except String Claim) (req : Request)
    (res : Response) (h : verifyToken jwtVerify req = .respond res) (handler : Handler)
    (s : Store) : guarded jwtVerify handler req s = (res, s) := by
  simp [guarded, h]

theorem guarded_next (jwtVerify : Option String → Except String Claim) (req req' : Request)
    (h : verifyToken jwtVerify req = .next req') (handler : Handler)
    (s : Store) : guarded jwtVerify handler req s = handler req' s := by
  simp [guarded, h]

theorem verifyToken_authFails (jwtVerify : Option String → Except String Claim)
    (req : Request) (h : AuthFails jwtVerify req) :
    ∃ res, res.status = 403 ∧ verifyToken jwtVerify req = .respond res := by
  rcases h with h | ⟨a, ha, hb⟩ | ⟨a, message, ha, hv⟩
  · exact ⟨noTokenResponse, rfl, verifyToken_absent jwtVerify req h⟩
  · exact ⟨noTokenResponse, rfl, verifyToken_noBearer jwtVerify req a ha hb⟩
  · cases hb : startsWith a "Bearer "
    · exact ⟨noTokenResponse, rfl, verifyToken_noBearer jwtVerify req a ha hb⟩
    · refine ⟨wrongTokenResponse message, rfl, ?_⟩
      rw [verifyToken_bearer jwtVerify req a ha hb, hv]

theorem verifyToken_next (jwtVerify : Option String → Except String Claim)
    (req req' : Request) (h : verifyToken jwtVerify req = .next req') :
    ∃ a data, req.authorization = some a ∧ startsWith a "Bearer " = true ∧
      jwtVerify (extractToken a) = .ok data ∧ req' = { req with user := some data } := by
  obtain ⟨auth, query, body, user⟩ := req
  cases auth with
  | none => rw [verifyToken_absent jwtVerify _ rfl] at h; cases h
  | some a =>
    cases hb : startsWith a "Bearer "
    · rw [verifyToken_noBearer jwtVerify _ a rfl hb] at h; cases h
    · rw [verifyToken_bearer jwtVerify _ a rfl hb] at h
      cases hv : jwtVerify (extractToken a) with
      | error message => rw [hv] at h; cases h
      | ok data =>
        rw [hv] at h
        refine ⟨a, data, rfl, hb, hv, ?_⟩
        injection h with h
        exact h.symm

/-- C1. On each of the six protected routes, a request whose `Authorization` header is
absent, does not start with `Bearer `, or carries a token that fails verification is answered
with status 403 by the middleware: whatever handler is registered behind it is not run, and
the store is unchanged. The handler of the route runs only on the request the middleware
passes on, which happens only when verification of the extracted token succeeds, and
`req.user` is then exactly the decoded claim. -/
theorem protected_route_requires_token (jwtVerify : Option String → Except String Claim)
    (route : Route) (req : Request) (s : Store) (hroute : route.isProtected = true) :
    (AuthFails jwtVerify req →
      ∃ res, res.status = 403 ∧
        (∀ handler : Handler, guarded jwtVerify handler req s = (res, s)) ∧
        propertyController jwtVerify route req s = (res, s)) ∧
    (∀ req', verifyToken jwtVerify req = .next req' →
      ∃ a data, req.authorization = some a ∧ startsWith a "Bearer " = true ∧
        jwtVerify (extractToken a) = .ok data ∧
        req' = { req with user := some data } ∧
        propertyController jwtVerify route req s = route.handler req' s) ∧
    ((∀ req', verifyToken jwtVerify req ≠ .next req') →
      ∀ handler handler' : Handler,
        guarded jwtVerify handler req s = guarded jwtVerify handler' req s) := by
  have hctl : propertyController jwtVerify route = guarded jwtVerify route.handler := by
    simp [propertyController, hroute]
  refine ⟨?_, ?_, ?_⟩
  · intro hfail
    obtain ⟨res, hstatus, hres⟩ := verifyToken_authFails jwtVerify req hfail
    refine ⟨res, hstatus, fun handler => guarded_respond jwtVerify req res hres handler s, ?_⟩
    rw [hctl]
    exact guarded_respond jwtVerify req res hres _ s
  · intro req' hnext
    obtain ⟨a, data, ha, hb, hv, hreq⟩ := verifyToken_next jwtVerify req req' hnext
    refine ⟨a, data, ha, hb, hv, hreq, ?_⟩
    rw [hctl]
    exact guarded_next jwtVerify req req' hnext _ s
  · intro hno handler handler'
    cases hv : verifyToken jwtVerify req with
    | respond res =>
      rw [guarded_respond jwtVerify req res hv, guarded_respond jwtVerify req res hv]
    | next req' => exact absurd hv (hno req')

theorem protected_route_requires_token_witness :
    (Route.delete "p1").isProtected = true ∧
    AuthFails sampleVerify (bareRequest (some "Bearer ")) ∧
    ∃ res : Response, res.status = 403 ∧
      (∀ handler : Handler,
        guarded sampleVerify handler (bareRequest (some "Bearer ")) emptyStore
          = (res, emptyStore)) ∧
      propertyController sampleVerify (Route.delete "p1") (bareRequest (some "Bearer "))
        emptyStore = (res, emptyStore) :=
  have hfail : AuthFails sampleVerify (bareRequest (some "Bearer ")) :=
    Or.inr (Or.inr ⟨"Bearer ", "jwt must be provided", rfl, rfl⟩)
  ⟨rfl, hfail,
    (protected_route_requires_token sampleVerify (Route.delete "p1")
      (bareRequest (some "Bearer ")) emptyStore rfl).1 hfail⟩

/-! ## C2: what the 403 body of the middleware carries -/

theorem splitChars_noSpace (cs : List Char) (h : ' ' ∉ cs) : splitChars cs = [cs] := by
  induction cs with
  | nil => rfl
  | cons c cs ih =>
    have hc : c ≠ ' ' := fun e => h (by simp [e])
    have hcs : ' ' ∉ cs := fun e => h (by simp [e])
    simp [splitChars, hc, ih hcs]

/-- For a header `Bearer <token>` whose token has no space, the middleware extracts
exactly `<token>`. -/
theorem extractToken_bearer (token : String) (h : ' ' ∉ token.toList) :
    extractToken ("Bearer " ++ token) = some token := by
  have hl : ("Bearer " ++ token).toList = "Bearer ".toList ++ token.toList := by
    simp
  have hs : splitChars token.data = [token.data] := splitChars_noSpace token.toList h
  simp [extractToken, split, hl, splitChars, hs]

theorem not_bearerForm_empty_token : ¬ BearerForm "Bearer " := by
  rintro ⟨token, hne, h⟩
  apply hne
  have hlen := congrArg String.length h
  rw [String.length_append] at hlen
  have h7 : "Bearer ".length = 7 := by decide
  rw [h7] at hlen
  have h0 : token.length = 0 := by omega
  cases token with
  | mk data =>
    have hd : data = [] := List.length_eq_zero.mp h0
    rw [hd]

/-- C2, counterexample. The header `Bearer ` is not of the form `Bearer <token>` with a
non-empty token, it passes the `startsWith` guard all the same, the empty token fails
verification, and the 403 body carries the error field with the verifier's reason. -/
theorem malformed_header_detail_counterexample :
    ¬ BearerForm "Bearer " ∧
    verifyToken sampleVerify (bareRequest (some "Bearer ")) =
      .respond ⟨403, .msgError "Wrong or expired token" "jwt must be provided"⟩ :=
  ⟨not_bearerForm_empty_token, by decide⟩

/-- C2, amended. A request whose `Authorization` header is absent or does not start with
`Bearer ` is answered 403 with the fixed message and nothing else. The body carries an error
field only when the header starts with `Bearer ` and the token extracted from it fails
verification, and the error field is then the reason the verifier gave. -/
theorem verifyToken_error_detail (jwtVerify : Option String → Except String Claim)
    (req : Request) :
    ((req.authorization = none ∨
        ∃ a, req.authorization = some a ∧ startsWith a "Bearer " = false) →
      verifyToken jwtVerify req =
        .respond ⟨403, .msg "Not authorized. No token provided"⟩) ∧
    (∀ status msg error,
      verifyToken jwtVerify req = .respond ⟨status, .msgError msg error⟩ →
      ∃ a, req.authorization = some a ∧ startsWith a "Bearer " = true ∧
        jwtVerify (extractToken a) = .error error) ∧
    (∀ a error, req.authorization = some a → startsWith a "Bearer " = true →
      jwtVerify (extractToken a) = .error error →
      verifyToken jwtVerify req =
        .respond ⟨403, .msgError "Wrong or expired token" error⟩) := by
  refine ⟨?_, ?_, ?_⟩
  · rintro (h | ⟨a, ha, hb⟩)
    · exact verifyToken_absent jwtVerify req h
    · exact verifyToken_noBearer jwtVerify req a ha hb
  · intro status msg error h
    obtain ⟨auth, query, body, user⟩ := req
    cases auth with
    | none => rw [verifyToken_absent jwtVerify _ rfl] at h; cases h
    | some a =>
      cases hb : startsWith a "Bearer "
      · rw [verifyToken_noBearer jwtVerify _ a rfl hb] at h; cases h
      · rw [verifyToken_bearer jwtVerify _ a rfl hb] at h
        cases hv : jwtVerify (extractToken a) with
        | ok data => rw [hv] at h; cases h
        | error message =>
          rw [hv] at h
          refine ⟨a, rfl, hb, ?_⟩
          simp only [wrongTokenResponse, Outcome.respond.injEq, Response.mk.injEq,
            ResBody.msgError.injEq] at h
          rw [hv, h.2.2]
  · intro a error ha hb hv
    rw [verifyToken_bearer jwtVerify req a ha hb, hv]
    rfl

theorem verifyToken_error_detail_witness :
    verifyToken sampleVerify (bareRequest (some "Basic abc")) =
        .respond ⟨403, .msg "Not authorized. No token provided"⟩ ∧
    verifyToken sampleVerify (bareRequest (some "Bearer  abc")) =
        .respond ⟨403, .msgError "Wrong or expired token" "jwt must be provided"⟩ :=
  ⟨(verifyToken_error_detail sampleVerify (bareRequest (some "Basic abc"))).1
      (Or.inr ⟨"Basic abc", rfl, by decide⟩),
   (verifyToken_error_detail sampleVerify (bareRequest (some "Bearer  abc"))).2.2
      "Bearer  abc" "jwt must be provided" rfl (by decide) (by rfl)⟩

/-! ## The document store: helper lemmas -/

theorem find_id {l : List Property} {id : String} {p : Property}
    (h : l.find? (fun q => q._id = id) = some p) : p._id = id := by
  have := List.find?_some h
  simpa using this

theorem find_split {l : List Property} {id : String} {p : Property}
    (h : l.find? (fun q => q._id = id) = some p) (f : Property → Property) :
    ∃ pre post, l = pre ++ p :: post ∧ (∀ q ∈ pre, q._id ≠ id) ∧
      updateFirst id f l = pre ++ f p :: post ∧ removeFirst id l = pre ++ post := by
  induction l with
  | nil => simp at h
  | cons q rest ih =>
    by_cases hq : q._id = id
    · have hqp : q = p := by simpa [List.find?, hq] using h
      subst hqp
      exact ⟨[], rest, rfl, by simp, by simp [updateFirst, hq], by simp [removeFirst, hq]⟩
    · have hrest : rest.find? (fun q => q._id = id) = some p := by
        simpa [List.find?, hq] using h
      obtain ⟨pre, post, hl, hpre, hupd, hrem⟩ := ih hrest
      refine ⟨q :: pre, post, by simp [hl], ?_, ?_, ?_⟩
      · intro r hr
        rcases List.mem_cons.mp hr with rfl | hr
        · exact hq
        · exact hpre r hr
      · simp [updateFirst, hq, hupd]
      · simp [removeFirst, hq, hrem]

theorem find_after_update {pre post : List Property} {id : String} (p' : Property)
    (hpre : ∀ q ∈ pre, q._id ≠ id) (hid : p'._id = id) :
    (pre ++ p' :: post).find? (fun q => q._id = id) = some p' := by
  induction pre with
  | nil => simp [List.find?, hid]
  | cons q pre ih =>
    have hq : q._id ≠ id := hpre q (by simp)
    have := ih (fun r hr => hpre r (by simp [hr]))
    simpa [List.find?, hq] using this

theorem indexOf_none {x : String} {l : List String} : indexOf x l = none ↔ x ∉ l := by
  induction l with
  | nil => simp [indexOf]
  | cons y ys ih =>
    by_cases h : y = x
    · simp [indexOf, h]
    · have h' : ¬ x = y := fun e => h e.symm
      simp [indexOf, h, h', ih]

theorem splice1_indexOf {x : String} {l : List String} {i : Nat}
    (h : indexOf x l = some i) : splice1 i l = l.erase x := by
  induction l generalizing i with
  | nil => simp [indexOf] at h
  | cons y ys ih =>
    by_cases hy : y = x
    · simp [indexOf, hy] at h
      subst h
      simp [splice1, hy]
    · simp only [indexOf, hy, if_false, Option.map_eq_some'] at h
      obtain ⟨j, hj, rfl⟩ := h
      have hbeq : (y == x) = false := by simpa using hy
      simp [splice1, List.erase_cons, hbeq, ih hj]

theorem toggled_mem {c : String} {l : List String} (h : c ∈ l) :
    toggled c l = l.erase c := by
  unfold toggled
  cases hi : indexOf c l with
  | none => exact absurd h (indexOf_none.mp hi)
  | some i => exact splice1_indexOf hi

theorem toggled_not_mem {c : String} {l : List String} (h : c ∉ l) :
    toggled c l = l ++ [c] := by
  unfold toggled
  rw [indexOf_none.mpr h]

/-! ## The bookmark toggle: helper lemmas -/

theorem toggleBookmark_owner {s : Store} {id c : String} {p : Property} {req : Request}
    (hp : s.findById id = some p) (hu : req.user = some ⟨c⟩) (ho : p.currentOwner = c) :
    toggleBookmark id req s =
      (⟨403, .error "You are not allowed to bookmark your own property"⟩, s) := by
  simp [toggleBookmark, hp, hu, ho]

theorem toggleBookmark_other {s : Store} {id c : String} {p : Property} {req : Request}
    (hp : s.findById id = some p) (hu : req.user = some ⟨c⟩) (ho : p.currentOwner ≠ c) :
    toggleBookmark id req s =
      (⟨200, .property { p with bookmarkedUsers := toggled c p.bookmarkedUsers }⟩,
       s.save { p with bookmarkedUsers := toggled c p.bookmarkedUsers }) := by
  simp only [toggleBookmark, hp, hu, ho, if_false, toggled]
  cases indexOf c p.bookmarkedUsers <;> rfl

theorem findById_save {s : Store} {id : String} {p p' : Property}
    (hp : s.findById id = some p) (hid : p'._id = p._id) :
    (s.save p').findById id = some p' := by
  have hpid : p._id = id := find_id hp
  obtain ⟨pre, post, _, hpre, hupd, _⟩ := find_split hp (fun _ => p')
  have hid' : p'._id = id := hid.trans hpid
  simp only [Store.findById, Store.save, hid', hupd]
  exact find_after_update p' hpre hid'

/-! ## C3: toggling a bookmark twice -/

/-- C3, at the failing input. `POST /` by `o` with the body
`{ bookmarkedUsers: ["c", "c"] }` stores a property that lists `c` twice. Two toggles by
`c`, who is not the owner, are both answered 200; each removes one occurrence, so `c` was in
the bookmark set before the first toggle and is not in it after the second. -/
theorem toggle_twice_drops_bookmark :
    applyRequests [(.create, authedRequest "o" [] ⟨none, some ["c", "c"], []⟩)] emptyStore
      = twiceBookmarked ∧
    twiceBookmarked.findById "0" = some ⟨"0", "o", ["c", "c"], []⟩ ∧
    (toggleBookmark "0" (authedRequest "c" [] emptyBody) twiceBookmarked).1.status = 200 ∧
    (toggleBookmark "0" (authedRequest "c" [] emptyBody)
      (toggleBookmark "0" (authedRequest "c" [] emptyBody) twiceBookmarked).2).1.status
        = 200 ∧
    (toggleBookmark "0" (authedRequest "c" [] emptyBody)
      (toggleBookmark "0" (authedRequest "c" [] emptyBody) twiceBookmarked).2).2.findById
        "0" = some ⟨"0", "o", [], []⟩ ∧
    "c" ∈ ["c", "c"] ∧ "c" ∉ ([] : List String) := by
  decide

/-- The toggle keeps a bookmark list free of duplicates: it never lists an id twice by
itself. -/
theorem toggled_nodup {c : String} {l : List String} (h : l.Nodup) : (toggled c l).Nodup := by
  by_cases hc : c ∈ l
  · rw [toggled_mem hc]
    exact h.erase c
  · rw [toggled_not_mem hc]
    refine List.Nodup.append h (List.nodup_singleton c) ?_
    intro u hu hu'
    rw [List.mem_singleton] at hu'
    exact hc (hu' ▸ hu)

/-- Where the bookmark list holds the caller's id at most once (as every list without
duplicates does), the round trip holds: for an existing property `p` and an authenticated
caller `c` who is not its owner, two toggles in succession are both answered 200, and
afterwards the stored property holds the same set of bookmarking users as before the first
toggle. -/
theorem toggle_twice_restores (s : Store) (id c : String) (p : Property) (req : Request)
    (hp : s.findById id = some p) (hu : req.user = some ⟨c⟩) (ho : p.currentOwner ≠ c)
    (hcount : p.bookmarkedUsers.count c ≤ 1) :
    (toggleBookmark id req s).1.status = 200 ∧
    (toggleBookmark id req (toggleBookmark id req s).2).1.status = 200 ∧
    ∃ p2, (toggleBookmark id req (toggleBookmark id req s).2).2.findById id = some p2 ∧
      ∀ u, u ∈ p2.bookmarkedUsers ↔ u ∈ p.bookmarkedUsers := by
  have h1 := toggleBookmark_other hp hu ho
  have hp1 : (s.save { p with bookmarkedUsers := toggled c p.bookmarkedUsers }).findById id =
      some { p with bookmarkedUsers := toggled c p.bookmarkedUsers } :=
    findById_save hp rfl
  have h2 := toggleBookmark_other hp1 hu ho
  have hs1 : (toggleBookmark id req s).2 =
      s.save { p with bookmarkedUsers := toggled c p.bookmarkedUsers } := by rw [h1]
  rw [hs1, h2]
  refine ⟨by rw [h1], rfl, _, findById_save hp1 rfl, ?_⟩
  intro u
  show u ∈ toggled c (toggled c p.bookmarkedUsers) ↔ u ∈ p.bookmarkedUsers
  by_cases hc : c ∈ p.bookmarkedUsers
  · have hone : p.bookmarkedUsers.count c = 1 := by
      have := List.count_pos_iff.mpr hc
      omega
    have hnot : c ∉ p.bookmarkedUsers.erase c := by
      intro hmem
      have := List.count_pos_iff.mpr hmem
      rw [List.count_erase_self, hone] at this
      omega
    rw [toggled_mem hc, toggled_not_mem hnot]
    by_cases huc : u = c
    · subst huc; simp [hc]
    · simp [huc, List.mem_erase_of_ne huc]
  · have hin : c ∈ p.bookmarkedUsers ++ [c] := by simp
    rw [toggled_not_mem hc, toggled_mem hin]
    rw [List.erase_append_right _ hc]
    simp

theorem toggle_twice_restores_witness :
    ∃ p2, (toggleBookmark "0" (authedRequest "d" [] emptyBody)
        (toggleBookmark "0" (authedRequest "d" [] emptyBody) twiceBookmarked).2).2.findById
          "0" = some p2 ∧
      ∀ u, u ∈ p2.bookmarkedUsers ↔ u ∈ ["c", "c"] :=
  (toggle_twice_restores twiceBookmarked "0" "d" ⟨"0", "o", ["c", "c"], []⟩
    (authedRequest "d" [] emptyBody) (by decide) rfl (by decide) (by decide)).2.2

/-! ## C7: the bookmark toggle -/

/-- C7, at the failing input. `POST /` by `o` with the body
`{ bookmarkedUsers: ["c", "d", "c"] }` stores a property that lists `c` before and after
`d`. A toggle by `c`, who is not the owner, is answered 200 and removes the first occurrence
only: `c` was a member of `bookmarkedUsers` before and is still a member in the updated
document. -/
theorem toggle_keeps_duplicate_bookmark :
    applyRequests [(.create, authedRequest "o" [] ⟨none, some ["c", "d", "c"], []⟩)]
      emptyStore = twiceBookmarkedAround ∧
    twiceBookmarkedAround.findById "0" = some ⟨"0", "o", ["c", "d", "c"], []⟩ ∧
    toggleBookmark "0" (authedRequest "c" [] emptyBody) twiceBookmarkedAround =
      (⟨200, .property ⟨"0", "o", ["d", "c"], []⟩⟩,
       ⟨[⟨"0", "o", ["d", "c"], []⟩], [], 1⟩) ∧
    "c" ∈ ["c", "d", "c"] ∧ "c" ∈ ["d", "c"] := by
  decide

/-- What the toggle does on any bookmark list. For an existing property `p` and an
authenticated caller `c`: when `c` is the owner the answer is 403 and nothing changes.
Otherwise the answer is 200 with the updated document; the first occurrence of `c` is removed
when `c` was a member, so `c` is no longer a member when the list held it exactly once (as
every list without duplicates does), and `c` is a member when it was not, while every other
user's membership, every other field of `p` and every other document are unchanged. -/
theorem toggle_bookmark_spec (s : Store) (id c : String) (p : Property) (req : Request)
    (hp : s.findById id = some p) (hu : req.user = some ⟨c⟩) :
    (p.currentOwner = c →
      (toggleBookmark id req s).1.status = 403 ∧ (toggleBookmark id req s).2 = s) ∧
    (p.currentOwner ≠ c →
      ∃ p' s', toggleBookmark id req s = (⟨200, .property p'⟩, s') ∧
        (c ∈ p.bookmarkedUsers → p'.bookmarkedUsers = p.bookmarkedUsers.erase c) ∧
        (p.bookmarkedUsers.count c = 1 → c ∉ p'.bookmarkedUsers) ∧
        (c ∉ p.bookmarkedUsers → c ∈ p'.bookmarkedUsers) ∧
        (∀ u, u ≠ c → (u ∈ p'.bookmarkedUsers ↔ u ∈ p.bookmarkedUsers)) ∧
        p'._id = p._id ∧ p'.currentOwner = p.currentOwner ∧ p'.fields = p.fields ∧
        s'.users = s.users ∧ s'.nextId = s.nextId ∧
        ∃ pre post, s.properties = pre ++ p :: post ∧ s'.properties = pre ++ p' :: post) := by
  refine ⟨fun ho => ?_, fun ho => ?_⟩
  · rw [toggleBookmark_owner hp hu ho]
    exact ⟨rfl, rfl⟩
  · refine ⟨_, _, toggleBookmark_other hp hu ho, ?_, ?_, ?_, ?_, rfl, rfl, rfl, rfl, rfl, ?_⟩
    · intro hc
      exact toggled_mem hc
    · intro hone
      have hc : c ∈ p.bookmarkedUsers := List.count_pos_iff.mp (by omega)
      show c ∉ toggled c p.bookmarkedUsers
      rw [toggled_mem hc]
      intro hmem
      have := List.count_pos_iff.mpr hmem
      rw [List.count_erase_self, hone] at this
      omega
    · intro hc
      show c ∈ toggled c p.bookmarkedUsers
      rw [toggled_not_mem hc]
      simp
    · intro u huc
      show u ∈ toggled c p.bookmarkedUsers ↔ u ∈ p.bookmarkedUsers
      by_cases hc : c ∈ p.bookmarkedUsers
      · rw [toggled_mem hc]
        exact List.mem_erase_of_ne huc
      · rw [toggled_not_mem hc]
        simp [huc]
    · obtain ⟨pre, post, hl, _, hupd, _⟩ :=
        find_split hp (fun _ => { p with bookmarkedUsers := toggled c p.bookmarkedUsers })
      exact ⟨pre, post, hl, by simpa [Store.save, find_id hp] using hupd⟩

theorem toggle_bookmark_spec_witness :
    ∃ p' s', toggleBookmark "0" (authedRequest "d" [] emptyBody) twiceBookmarkedAround
        = (⟨200, .property p'⟩, s') ∧
      ("d" ∈ ["c", "d", "c"] → p'.bookmarkedUsers = ["c", "d", "c"].erase "d") ∧
      (["c", "d", "c"].count "d" = 1 → "d" ∉ p'.bookmarkedUsers) :=
  have h := (toggle_bookmark_spec twiceBookmarkedAround "0" "d"
    ⟨"0", "o", ["c", "d", "c"], []⟩ (authedRequest "d" [] emptyBody)
    (by decide) rfl).2 (by decide)
  let ⟨p', s', h1, h2, h3, _⟩ := h
  ⟨p', s', h1, h2, h3⟩

/-! ## C4: the owner of a created property -/

/-- C4. For an authenticated caller `c` and any request body, also one with its own
`currentOwner`: `POST /` answers 201 with the new document, that document is the one stored,
its owner is `c` (never another `X` named in the body), its other fields are those of the
body, and the documents already in the store are unchanged. -/
theorem create_assigns_owner (s : Store) (c : String) (req : Request)
    (hu : req.user = some ⟨c⟩) :
    ∃ p, createProperty req s =
        (⟨201, .property p⟩,
         { s with properties := s.properties ++ [p], nextId := s.nextId + 1 }) ∧
      p.currentOwner = c ∧
      (∀ X, req.body.currentOwner = some X → X ≠ c → p.currentOwner ≠ X) ∧
      p.fields = req.body.fields ∧
      p.bookmarkedUsers = req.body.bookmarkedUsers.getD [] := by
  refine ⟨⟨toString s.nextId, c, req.body.bookmarkedUsers.getD [], req.body.fields⟩,
    ?_, rfl, ?_, rfl, rfl⟩
  · simp only [createProperty, hu, Store.create]
  · intro X _ hX h
    exact hX h.symm

theorem create_assigns_owner_witness :
    ∃ p, createProperty (authedRequest "c" [] ⟨some "x", none, [("type", .str "beach")]⟩)
        oneListing =
        (⟨201, .property p⟩,
         { oneListing with
           properties := oneListing.properties ++ [p], nextId := oneListing.nextId + 1 }) ∧
      p.currentOwner = "c" ∧
      (∀ X, some "x" = some X → X ≠ "c" → p.currentOwner ≠ X) ∧
      p.fields = [("type", .str "beach")] ∧
      p.bookmarkedUsers = [] :=
  create_assigns_owner oneListing "c"
    (authedRequest "c" [] ⟨some "x", none, [("type", .str "beach")]⟩) rfl

/-! ## C5: update and delete by a caller who is not the owner -/

/-- C5. For an existing property `p`, an authenticated caller `c` whose id differs from
`p.currentOwner` and any request body: `PUT /:id` and `DELETE /:id` both answer 403 and the
store is exactly as before. -/
theorem non_owner_forbidden (s : Store) (id c : String) (p : Property) (req : Request)
    (hp : s.findById id = some p) (hu : req.user = some ⟨c⟩) (ho : p.currentOwner ≠ c) :
    updateProperty id req s =
      (⟨403, .error "You are not allowed to update other people's properties"⟩, s) ∧
    deleteProperty id req s =
      (⟨403, .error "You are not allowed to delete other people's properties"⟩, s) := by
  constructor
  · simp [updateProperty, hp, hu, ho]
  · simp [deleteProperty, hp, hu, ho]

theorem non_owner_forbidden_witness :
    (updateProperty "p1" (authedRequest "c" [] ⟨some "c", none, []⟩) oneListing).1.status
      = 403 ∧
    (updateProperty "p1" (authedRequest "c" [] ⟨some "c", none, []⟩) oneListing).2
      = oneListing ∧
    (deleteProperty "p1" (authedRequest "c" [] ⟨some "c", none, []⟩) oneListing).1.status
      = 403 ∧
    (deleteProperty "p1" (authedRequest "c" [] ⟨some "c", none, []⟩) oneListing).2
      = oneListing :=
  have h := non_owner_forbidden oneListing "p1" "c"
    ⟨"p1", "o", [], [("type", .str "beach"), ("price", .num 100)]⟩
    (authedRequest "c" [] ⟨some "c", none, []⟩) (by decide) rfl (by decide)
  ⟨by rw [h.1], by rw [h.1], by rw [h.2], by rw [h.2]⟩

/-! ## C6: update by the owner -/

theorem getField_setField_same (k : String) (v : Json) (fs : Fields) :
    getField k (setField k v fs) = some v := by
  induction fs with
  | nil => simp [setField, getField]
  | cons kv rest ih =>
    obtain ⟨k', v'⟩ := kv
    by_cases h : k' = k
    · simp [setField, getField, h]
    · simp [setField, getField, h, ih]

theorem getField_setField_ne (k k' : String) (v : Json) (fs : Fields) (hne : k' ≠ k) :
    getField k' (setField k v fs) = getField k' fs := by
  induction fs with
  | nil =>
    have : ¬ k = k' := fun e => hne e.symm
    simp [setField, getField, this]
  | cons kv rest ih =>
    obtain ⟨k1, v1⟩ := kv
    by_cases h : k1 = k
    · have h1 : ¬ k1 = k' := fun e => hne (e.symm.trans h)
      have h2 : ¬ k = k' := fun e => hne e.symm
      simp [setField, getField, h, h1, h2]
    · by_cases h1 : k1 = k'
      · subst h1
        simp [setField, getField, h]
      · simp [setField, getField, h, h1, ih]

theorem getField_applySet (body fs : Fields) (k : String) :
    getField k (body.foldr (fun kv acc => setField kv.1 kv.2 acc) fs) =
      match getField k body with
      | some v => some v
      | none => getField k fs := by
  induction body with
  | nil => simp [getField]
  | cons kv rest ih =>
    obtain ⟨k1, v1⟩ := kv
    by_cases h : k1 = k
    · subst h
      simp [getField, getField_setField_same]
    · have hne : k ≠ k1 := fun e => h e.symm
      simp only [List.foldr_cons, getField, h, if_false]
      rw [getField_setField_ne k1 k v1 _ hne, ih]

/-- C6. For an existing property `p`, its owner `c` as authenticated caller and any request
body `b`: `PUT /:id` answers 200 with the updated document, in which every field supplied in
`b` has the value of `b` and every field not supplied keeps its value; the updated document
takes the place of `p` in the store and every other document is unchanged. -/
theorem owner_update_applies_fields (s : Store) (id c : String) (p : Property)
    (req : Request) (hp : s.findById id = some p) (hu : req.user = some ⟨c⟩)
    (ho : p.currentOwner = c) :
    ∃ p' s', updateProperty id req s = (⟨200, .property p'⟩, s') ∧
      p'._id = p._id ∧
      (∀ k v, getField k req.body.fields = some v → getField k p'.fields = some v) ∧
      (∀ k, getField k req.body.fields = none → getField k p'.fields = getField k p.fields) ∧
      (∀ o, req.body.currentOwner = some o → p'.currentOwner = o) ∧
      (req.body.currentOwner = none → p'.currentOwner = p.currentOwner) ∧
      (∀ l, req.body.bookmarkedUsers = some l → p'.bookmarkedUsers = l) ∧
      (req.body.bookmarkedUsers = none → p'.bookmarkedUsers = p.bookmarkedUsers) ∧
      s'.users = s.users ∧ s'.nextId = s.nextId ∧
      ∃ pre post, s.properties = pre ++ p :: post ∧ s'.properties = pre ++ p' :: post := by
  refine ⟨applySet req.body p,
    { s with properties := updateFirst id (applySet req.body) s.properties },
    ?_, rfl, ?_, ?_, ?_, ?_, ?_, ?_, rfl, rfl, ?_⟩
  · simp [updateProperty, hp, hu, ho, Store.findByIdAndUpdate]
  · intro k v hk
    simp only [applySet]
    rw [getField_applySet, hk]
  · intro k hk
    simp only [applySet]
    rw [getField_applySet, hk]
  · intro o h; simp [applySet, h]
  · intro h; simp [applySet, h]
  · intro l h; simp [applySet, h]
  · intro h; simp [applySet, h]
  · obtain ⟨pre, post, hl, _, hupd, _⟩ := find_split hp (applySet req.body)
    exact ⟨pre, post, hl, hupd⟩

theorem owner_update_applies_fields_witness :
    ∃ p' s', updateProperty "p1" (authedRequest "o" [] ⟨none, none, [("price", .num 90)]⟩)
        oneListing = (⟨200, .property p'⟩, s') ∧
      p'._id = "p1" ∧
      getField "price" p'.fields = some (.num 90) ∧
      getField "type" p'.fields = some (.str "beach") ∧
      p'.currentOwner = "o" :=
  have h := owner_update_applies_fields oneListing "p1" "o"
    ⟨"p1", "o", [], [("type", .str "beach"), ("price", .num 100)]⟩
    (authedRequest "o" [] ⟨none, none, [("price", .num 90)]⟩) (by decide) rfl rfl
  let ⟨p', s', h1, h2, h3, h4, _, h6, _⟩ := h
  ⟨p', s', h1, h2, h3 "price" (.num 90) (by decide),
    (h4 "type" (by decide)).trans (by decide), h6 rfl⟩

/-! ## C8: ids that match no document -/

theorem getField_eraseField (k : String) (fs : Fields) :
    getField k (eraseField k fs) = none := by
  induction fs with
  | nil => rfl
  | cons kv rest ih =>
    obtain ⟨k', v⟩ := kv
    by_cases h : k' = k
    · simpa [eraseField, h] using ih
    · have ih' : getField k (List.filter (fun kv => kv.1 != k) rest) = none := ih
      have hb : (k' != k) = true := by simpa using h
      rw [eraseField, List.filter_cons]
      simp only [hb, if_true, getField, h, if_false]
      exact ih'

/-- What each id-addressed handler answers when no document has the id: `GET /find/:id` and
`PUT /bookmark/:id` answer 404, `PUT /:id` and `DELETE /:id` answer 500 with the message of
the `TypeError`; the store is unchanged in all four. -/
theorem missing_document_responses (s : Store) (id : String) (req : Request)
    (h : s.findById id = none) :
    findOne id req s = (⟨404, .error "Property not found"⟩, s) ∧
    toggleBookmark id req s = (⟨404, .error "Property not found"⟩, s) ∧
    updateProperty id req s = (⟨500, .error nullOwnerError⟩, s) ∧
    deleteProperty id req s = (⟨500, .error nullOwnerError⟩, s) := by
  simp [findOne, toggleBookmark, updateProperty, deleteProperty, h]

/-- For an id that matches a document, `GET /find/:id` answers 200 with that document, its
owner embedded, and the embedded owner has no password field. -/
theorem findOne_existing (s : Store) (id : String) (req : Request) (p : Property)
    (h : s.findById id = some p) :
    findOne id req s = (⟨200, .populated (s.populate p)⟩, s) ∧
    (s.populate p)._id = p._id ∧ (s.populate p).fields = p.fields ∧
    (s.populate p).bookmarkedUsers = p.bookmarkedUsers ∧
    ∀ u, (s.populate p).currentOwner = some u →
      u._id = p.currentOwner ∧ getField "password" u.fields = none := by
  refine ⟨by simp [findOne, h], rfl, rfl, rfl, ?_⟩
  intro u hu
  simp only [Store.populate, Option.map_eq_some'] at hu
  obtain ⟨u0, hfind, rfl⟩ := hu
  refine ⟨?_, getField_eraseField "password" u0.fields⟩
  have := List.find?_some hfind
  simpa using this

/-- C8, at the failing input. With a valid token and an id that matches no document,
`PUT /:id` and `DELETE /:id` answer 500 with the message of the `TypeError` thrown on the
`null` document, not 404; `GET /find/:id` and `PUT /bookmark/:id` answer 404. The store is
unchanged in all four. -/
theorem missing_document_update_delete :
    propertyController sampleVerify (.update "p1") (bareRequest (some "Bearer u1")) emptyStore
      = (⟨500, .error "Cannot read properties of null (reading 'currentOwner')"⟩,
         emptyStore) ∧
    propertyController sampleVerify (.delete "p1") (bareRequest (some "Bearer u1")) emptyStore
      = (⟨500, .error "Cannot read properties of null (reading 'currentOwner')"⟩,
         emptyStore) ∧
    propertyController sampleVerify (.bookmark "p1") (bareRequest (some "Bearer u1"))
      emptyStore = (⟨404, .error "Property not found"⟩, emptyStore) ∧
    propertyController sampleVerify (.findById "p1") (bareRequest none) emptyStore
      = (⟨404, .error "Property not found"⟩, emptyStore) := by
  decide

/-! ## C9: the filter of `GET /find` -/

/-- The filter `GET /find` hands to the store is `{ type: req.query }` for every request:
the query object is the value looked for in the field `type`, and the branch without a
filter is never taken. -/
theorem find_filter (req : Request) (s : Store) :
    find req s =
      (⟨200, .populatedList ((s.findByField "type" (.obj req.query)).map s.populate)⟩, s) := by
  simp [find, truthy]

/-- C9, at the failing input. The store holds one property of type `beach`.
`GET /find?type=beach` answers 200 with no document, and so does `GET /find` without a query
string: neither the documents of type `beach` nor all documents are returned. -/
theorem find_by_type_returns_nothing :
    oneListing.findByField "type" (.str "beach") = oneListing.properties ∧
    find (queryRequest [("type", .str "beach")]) oneListing
      = (⟨200, .populatedList []⟩, oneListing) ∧
    find (queryRequest []) oneListing = (⟨200, .populatedList []⟩, oneListing) := by
  decide

/-! ## C10: self-bookmarking -/

theorem mem_updateFirst {id : String} {f : Property → Property} {l : List Property}
    {q : Property} (h : q ∈ updateFirst id f l) :
    q ∈ l ∨ ∃ p ∈ l, p._id = id ∧ q = f p := by
  induction l with
  | nil => simp [updateFirst] at h
  | cons p rest ih =>
    by_cases hp : p._id = id
    · simp only [updateFirst, hp, if_true, List.mem_cons] at h
      rcases h with h | h
      · exact Or.inr ⟨p, by simp, hp, h⟩
      · exact Or.inl (by simp [h])
    · simp only [updateFirst, hp, if_false, List.mem_cons] at h
      rcases h with h | h
      · exact Or.inl (by simp [h])
      · rcases ih h with h | ⟨p0, hp0, hid, hq⟩
        · exact Or.inl (by simp [h])
        · exact Or.inr ⟨p0, by simp [hp0], hid, hq⟩

/-- The toggle route keeps the invariant: a store without self-bookmarks has none after
`PUT /bookmark/:id`, whoever calls it. -/
theorem toggleBookmark_preserves (s : Store) (id : String) (req : Request)
    (h : NoSelfBookmark s) : NoSelfBookmark (toggleBookmark id req s).2 := by
  cases hp : s.findById id with
  | none => simpa [toggleBookmark, hp] using h
  | some p =>
    cases hu : req.user with
    | none => simpa [toggleBookmark, hp, hu] using h
    | some user =>
      obtain ⟨c⟩ := user
      by_cases ho : p.currentOwner = c
      · rw [toggleBookmark_owner hp hu ho]
        exact h
      · rw [toggleBookmark_other hp hu ho]
        intro q hq
        rcases mem_updateFirst hq with hq | ⟨_, _, _, rfl⟩
        · exact h q hq
        · show p.currentOwner ∉ toggled c p.bookmarkedUsers
          have hmem : p ∈ s.properties := List.mem_of_find?_eq_some hp
          have hself := h p hmem
          by_cases hc : c ∈ p.bookmarkedUsers
          · rw [toggled_mem hc]
            exact fun hin => hself (List.mem_of_mem_erase hin)
          · rw [toggled_not_mem hc]
            simp [hself, ho]

/-- C10, at the failing inputs. From the empty store, one `POST /` by `u1` whose body
lists `u1` in `bookmarkedUsers` stores a property owned by `u1` and bookmarked by `u1`. So
does a `PUT /:id` by the owner `u1` that hands the property to `u2` after `u2` has
bookmarked it. -/
theorem self_bookmark_reachable :
    applyRequests [(.create, authedRequest "u1" [] ⟨none, some ["u1"], []⟩)] emptyStore
      = ⟨[⟨"0", "u1", ["u1"], []⟩], [], 1⟩ ∧
    ¬ NoSelfBookmark
      (applyRequests [(.create, authedRequest "u1" [] ⟨none, some ["u1"], []⟩)] emptyStore) ∧
    applyRequests
      [(.create, authedRequest "u1" [] emptyBody),
       (.bookmark "0", authedRequest "u2" [] emptyBody),
       (.update "0", authedRequest "u1" [] ⟨some "u2", none, []⟩)] emptyStore
      = ⟨[⟨"0", "u2", ["u2"], []⟩], [], 1⟩ ∧
    ¬ NoSelfBookmark
      (applyRequests
        [(.create, authedRequest "u1" [] emptyBody),
         (.bookmark "0", authedRequest "u2" [] emptyBody),
         (.update "0", authedRequest "u1" [] ⟨some "u2", none, []⟩)] emptyStore) := by
  decide

end PropertyApi
